import Mathlib

/-!
Verification of the raw-TCP HTTP/1.1 client (`src/http_client.rs`).

Shallow embedding of the pure parts of `HttpClient::request` and of the
surrounding control flow.  Text is modelled as `List Char` (the raw response
buffer) or `String` (the request that is assembled and written).  The network
and the external crates (`url`, `dns_lookup`, `serde_json`) are modelled as an
environment record whose fields give the outcome of each external call; the
body of `request` is translated statement by statement from the source.

Machine integers: the status code is a Rust `u16`; `str::parse::<u16>` is
modelled with an explicit `≤ 65535` bound.  Rust panics (out-of-range slice
indexing, indexing an empty vector) are modelled with `Option` / a dedicated
`panicked` outcome.
-/

namespace HttpClientModel

/-- Drop a single trailing carriage return, as the closure inside Rust's
`str::lines` does after removing the `'\n'` terminator. -/
def stripCR (s : List Char) : List Char :=
  match s.getLast? with
  | some c => if c = '\r' then s.dropLast else s
  | none => s

/-- Worker for `rustLines`: `cur` is the reversed current line. -/
def linesAux (cur : List Char) : List Char → List (List Char)
  | [] => if cur = [] then [] else [cur.reverse]
  | c :: rest =>
      if c = '\n' then stripCR cur.reverse :: linesAux [] rest
      else linesAux (c :: cur) rest

/-- Rust `str::lines`: split at `'\n'`, strip a `'\r'` that immediately
precedes a `'\n'`, drop a final empty segment (the final line terminator is
optional), and keep a bare trailing `'\r'` on an unterminated last line. -/
def rustLines (s : List Char) : List (List Char) :=
  linesAux [] s

/-- Rust `char::is_whitespace`: the Unicode `White_Space` property. -/
def rustIsWS (c : Char) : Bool :=
  c ∈ ['\u0009', '\u000A', '\u000B', '\u000C', '\u000D', '\u0020',
       '\u0085', '\u00A0', '\u1680', '\u2000', '\u2001', '\u2002',
       '\u2003', '\u2004', '\u2005', '\u2006', '\u2007', '\u2008',
       '\u2009', '\u200A', '\u2028', '\u2029', '\u202F', '\u205F',
       '\u3000']

/-- Worker for `splitWhitespace`: `cur` is the reversed current token. -/
def splitWSAux (cur : List Char) : List Char → List (List Char)
  | [] => if cur = [] then [] else [cur.reverse]
  | c :: rest =>
      if rustIsWS c then
        (if cur = [] then splitWSAux [] rest
         else cur.reverse :: splitWSAux [] rest)
      else splitWSAux (c :: cur) rest

/-- Rust `str::split_whitespace`: split on Unicode whitespace, discarding
empty tokens. -/
def splitWhitespace (s : List Char) : List (List Char) :=
  splitWSAux [] s

/-- Value of a digit string, `none` if any character is not an ASCII digit. -/
def parseDigits (s : List Char) : Option Nat :=
  s.foldl
    (fun acc c => acc.bind fun n =>
      if c.isDigit then some (n * 10 + (c.toNat - 48)) else none)
    (some 0)

/-- Rust `str::parse::<u16>`: an optional leading `'+'`, then one or more
ASCII digits, value at most `2^16 - 1`. -/
def parseU16 (s : List Char) : Option Nat :=
  let t := match s with
    | '+' :: rest => rest
    | _ => s
  if t = [] then none
  else (parseDigits t).bind fun n => if n ≤ 65535 then some n else none

/-- Index (from the front) of the first occurrence of `c`, as Rust
`str::find(char)`. -/
def findChar (c : Char) : List Char → Option Nat
  | [] => none
  | x :: rest => if x = c then some 0 else (findChar c rest).map (· + 1)

/-- Index (from the front) of the last occurrence of `c`, as Rust
`str::rfind(char)`. -/
def rfindChar (c : Char) : List Char → Option Nat
  | [] => none
  | x :: rest =>
      match rfindChar c rest with
      | some i => some (i + 1)
      | none => if x = c then some 0 else none

/-- Rust slice `s[a..b]`: `none` models the panic when `a > b` or
`b > s.len()`. -/
def sliceOf (s : List Char) (a b : Nat) : Option (List Char) :=
  if a ≤ b ∧ b ≤ s.length then some ((s.take b).drop a) else none

/-- Rust `line.splitn(2, ": ")` when the separator occurs: the part before
the first `": "` and the part after it; `none` when there is no separator. -/
def splitFirstSep : List Char → Option (List Char × List Char)
  | [] => none
  | c :: rest =>
      if c = ':' ∧ rest.head? = some ' ' then some ([], rest.tail)
      else (splitFirstSep rest).map fun p => (c :: p.1, p.2)

/-- One header line to a key/value pair (the closure at
`src/http_client.rs:169-176`): split at the first `": "`; a line without the
separator becomes the key with an empty value. -/
def parseHeaderLine (line : List Char) : List Char × List Char :=
  match splitFirstSep line with
  | some p => p
  | none => (line, [])

/-- Model of `HashMap::insert` on the association-list rendering of
`HashMap<String, String>`: replace the value of an existing key in place,
otherwise append the new entry. -/
def hmInsert (m : List (List Char × List Char)) (k v : List Char) :
    List (List Char × List Char) :=
  match m with
  | [] => [(k, v)]
  | (k', v') :: rest => if k' = k then (k, v) :: rest else (k', v') :: hmInsert rest k v

/-- Lookup in the association-list model of the header map. -/
def hmLookup (m : List (List Char × List Char)) (k : List Char) :
    Option (List Char) :=
  match m with
  | [] => none
  | (k', v') :: rest => if k' = k then some v' else hmLookup rest k

/-- The value of the last pair with key `k` in a pair list (what surviving a
`collect::<HashMap<_,_>>` of duplicate keys yields). -/
def lastWins (ps : List (List Char × List Char)) (k : List Char) :
    Option (List Char) :=
  match ps with
  | [] => none
  | p :: rest =>
      match lastWins rest k with
      | some v => some v
      | none => if p.1 = k then some p.2 else none

/-- Translation of `HttpClient::get_status_text` (`src/http_client.rs:47-113`): the fixed
status-code-to-phrase match, translated condition by condition. -/
def get_status_text (status_code : Nat) : String :=
  if status_code = 100 then "Continue" else
  if status_code = 101 then "Switching Protocols" else
  if status_code = 102 then "Processing" else
  if status_code = 103 then "Early Hints" else
  if status_code = 200 then "OK" else
  if status_code = 201 then "Created" else
  if status_code = 202 then "Accepted" else
  if status_code = 203 then "Non-Authoritative Information" else
  if status_code = 204 then "No Content" else
  if status_code = 205 then "Reset Content" else
  if status_code = 206 then "Partial Content" else
  if status_code = 207 then "Multi-Status" else
  if status_code = 208 then "Already Reported" else
  if status_code = 226 then "IM Used" else
  if status_code = 300 then "Multiple Choices" else
  if status_code = 301 then "Moved Permanently" else
  if status_code = 302 then "Found" else
  if status_code = 303 then "See Other" else
  if status_code = 304 then "Not Modified" else
  if status_code = 305 then "Use Proxy" else
  if status_code = 307 then "Temporary Redirect" else
  if status_code = 308 then "Permanent Redirect" else
  if status_code = 400 then "Bad Request" else
  if status_code = 401 then "Unauthorized" else
  if status_code = 402 then "Payment Required" else
  if status_code = 403 then "Forbidden" else
  if status_code = 404 then "Not Found" else
  if status_code = 405 then "Method Not Allowed" else
  if status_code = 406 then "Not Acceptable" else
  if status_code = 407 then "Proxy Authentication Required" else
  if status_code = 408 then "Request Timeout" else
  if status_code = 409 then "Conflict" else
  if status_code = 410 then "Gone" else
  if status_code = 411 then "Length Required" else
  if status_code = 412 then "Precondition Failed" else
  if status_code = 413 then "Payload Too Large" else
  if status_code = 414 then "URI Too Long" else
  if status_code = 415 then "Unsupported Media Type" else
  if status_code = 416 then "Range Not Satisfiable" else
  if status_code = 417 then "Expectation Failed" else
  if status_code = 418 then "I'm a teapot" else
  if status_code = 421 then "Misdirected Request" else
  if status_code = 422 then "Unprocessable Content" else
  if status_code = 423 then "Locked" else
  if status_code = 424 then "Failed Dependency" else
  if status_code = 425 then "Too Early" else
  if status_code = 426 then "Upgrade Required" else
  if status_code = 428 then "Precondition Required" else
  if status_code = 429 then "Too Many Requests" else
  if status_code = 431 then "Request Header Fields Too Large" else
  if status_code = 451 then "Unavailable For Legal Reasons" else
  if status_code = 500 then "Internal Server Error" else
  if status_code = 501 then "Not Implemented" else
  if status_code = 502 then "Bad Gateway" else
  if status_code = 503 then "Service Unavailable" else
  if status_code = 504 then "Gateway Timeout" else
  if status_code = 505 then "HTTP Version Not Supported" else
  if status_code = 506 then "Variant Also Negotiates" else
  if status_code = 507 then "Insufficient Storage" else
  if status_code = 508 then "Loop Detected" else
  if status_code = 510 then "Not Extended" else
  if status_code = 511 then "Network Authentication Required" else
  "Unknown"

/-- The status-code-to-phrase table as a list of entries, in the order of the
match arms of `get_status_text`. -/
def statusTable : List (Nat × String) :=
  [(100, "Continue"), (101, "Switching Protocols"), (102, "Processing"),
   (103, "Early Hints"), (200, "OK"), (201, "Created"), (202, "Accepted"),
   (203, "Non-Authoritative Information"), (204, "No Content"),
   (205, "Reset Content"), (206, "Partial Content"), (207, "Multi-Status"),
   (208, "Already Reported"), (226, "IM Used"), (300, "Multiple Choices"),
   (301, "Moved Permanently"), (302, "Found"), (303, "See Other"),
   (304, "Not Modified"), (305, "Use Proxy"), (307, "Temporary Redirect"),
   (308, "Permanent Redirect"), (400, "Bad Request"), (401, "Unauthorized"),
   (402, "Payment Required"), (403, "Forbidden"), (404, "Not Found"),
   (405, "Method Not Allowed"), (406, "Not Acceptable"),
   (407, "Proxy Authentication Required"), (408, "Request Timeout"),
   (409, "Conflict"), (410, "Gone"), (411, "Length Required"),
   (412, "Precondition Failed"), (413, "Payload Too Large"),
   (414, "URI Too Long"), (415, "Unsupported Media Type"),
   (416, "Range Not Satisfiable"), (417, "Expectation Failed"),
   (418, "I'm a teapot"), (421, "Misdirected Request"),
   (422, "Unprocessable Content"), (423, "Locked"),
   (424, "Failed Dependency"), (425, "Too Early"), (426, "Upgrade Required"),
   (428, "Precondition Required"), (429, "Too Many Requests"),
   (431, "Request Header Fields Too Large"),
   (451, "Unavailable For Legal Reasons"), (500, "Internal Server Error"),
   (501, "Not Implemented"), (502, "Bad Gateway"),
   (503, "Service Unavailable"), (504, "Gateway Timeout"),
   (505, "HTTP Version Not Supported"), (506, "Variant Also Negotiates"),
   (507, "Insufficient Storage"), (508, "Loop Detected"),
   (510, "Not Extended"), (511, "Network Authentication Required")]

/-- Lookup of a status code in a phrase table. -/
def tableLookup (c : Nat) : List (Nat × String) → Option String
  | [] => none
  | (k, v) :: rest => if c = k then some v else tableLookup c rest

/-- The status line: `response.lines().next().unwrap_or("")`
(`src/http_client.rs:159`). -/
def statusLineOf (response : List Char) : List Char :=
  (rustLines response).headD []

/-- The numeric status code (`src/http_client.rs:160-162`): the second
whitespace-separated token of the status line, parsed as a `u16`, defaulting
to 0 when missing or unparsable. -/
def statusCodeOf (response : List Char) : Nat :=
  (((splitWhitespace (statusLineOf response))[1]?).bind parseU16).getD 0

/-- The header lines (`src/http_client.rs:166-168`): the lines after the
status line, up to but not including the first empty line. -/
def headerLinesOf (response : List Char) : List (List Char) :=
  ((rustLines response).drop 1).takeWhile (fun l => !l.isEmpty)

/-- The key/value pair produced for each header line
(`src/http_client.rs:169-176`). -/
def headerPairsOf (response : List Char) : List (List Char × List Char) :=
  (headerLinesOf response).map parseHeaderLine

/-- The header map (`src/http_client.rs:166-177`): the per-line pairs
collected into a `HashMap`, a later pair overwriting an earlier one with the
same key. -/
def headersOf (response : List Char) : List (List Char × List Char) :=
  (headerPairsOf response).foldl (fun m p => hmInsert m p.1 p.2) []

/-- Model of `response.find('{').unwrap_or(0)` (`src/http_client.rs:179`). -/
def jsonStartOf (response : List Char) : Nat :=
  (findChar '{' response).getD 0

/-- Model of `response.rfind('}').map(|pos| pos + 1).unwrap_or(response.len())`
(`src/http_client.rs:180`). -/
def jsonEndOf (response : List Char) : Nat :=
  ((rfindChar '}' response).map (· + 1)).getD response.length

/-- Mirror of `HttpResponse` (`src/http_client.rs:38-44`); the `duration` field holds
the elapsed wall-clock time measured by the caller, supplied here by the
environment since time is not modelled. -/
structure HttpResponse where
  status_code : Nat
  status_text : String
  json_body : List Char
  duration : Nat
  headers : List (List Char × List Char)
deriving DecidableEq

/-- Lines 159-185 of `src/http_client.rs`: parse the raw response buffer into
an `HttpResponse`.  The result is `none` exactly when the slice
`response[json_start..json_end]` would panic, i.e. when `json_start`
exceeds `json_end`. -/
def parseResponse (response : List Char) (dur : Nat) : Option HttpResponse :=
  match sliceOf response (jsonStartOf response) (jsonEndOf response) with
  | none => none
  | some body =>
      some { status_code := statusCodeOf response
             status_text := get_status_text (statusCodeOf response)
             json_body := body
             duration := dur
             headers := headersOf response }


/-- Mirror of `HttpMethod` (`src/http_client.rs:11-15`). -/
inductive HttpMethod
  | get
  | post
  | delete
deriving DecidableEq

/-- The method string (`src/http_client.rs:133-137`). -/
def methodStr : HttpMethod → String
  | .get => "GET"
  | .post => "POST"
  | .delete => "DELETE"

/-- Mirror of `HttpRequestError` (`src/http_client.rs:20-24`); the payload of
`serializationError` is the message of the underlying `serde_json::Error`. -/
inductive HttpRequestError
  | invalidUrl (msg : String)
  | connectionError (msg : String)
  | serializationError (msg : String)
deriving DecidableEq

/-- The value `request` computes: the Rust
`Result<Option<HttpResponse>, HttpRequestError>`, extended with a `panicked`
outcome for the places where the source can panic (indexing `ips[0]` on an
empty lookup result, slicing the response at reversed brace positions). -/
inductive RequestOutcome
  | panicked
  | err (e : HttpRequestError)
  | okNone
  | okSome (r : HttpResponse)
deriving DecidableEq

/-- What `url::Url::parse` exposes of a parsed URL: the scheme, the optional
host (`host_str()`), and the path. -/
structure UrlParts where
  scheme : String
  host : Option String
  path : String

/-- Outcomes of every external call `HttpClient::request` makes, so that the
control flow of the source can be replayed as a pure function.  `probe` and
`connect` answer whether a `TcpStream::connect` to the given target succeeds
(`probe` takes host and port as the source passes the pair `(host, 80)`;
`connect` takes the already formatted `"<addr>:80"` string); `writeOk` tells
whether `write_all` of the given request text succeeds; `readResult` is the
text `read_to_string` produced, or `none` on a read error; `serialize` is
the result of `serde_json::to_string` on the body; `elapsed` is the measured
wall-clock duration; the `*ErrMsg` fields are the messages of the
corresponding external errors. -/
structure NetEnv (J : Type) where
  parseUrl : Option UrlParts
  urlErrMsg : String
  probe : String → Nat → Bool
  lookup : String → Option (List String)
  connect : String → Bool
  connErrMsg : String
  serialize : J → Option String
  serErrMsg : String
  writeOk : String → Bool
  writeErrMsg : String
  readResult : Option (List Char)
  readErrMsg : String
  elapsed : Nat

/-- The request text (`src/http_client.rs:139-152`): the `format!` template,
followed by the serialized body plus `"\r\n"` when one was supplied. -/
def buildRequestText (m : HttpMethod) (host path : String)
    (serialized : Option String) : String :=
  let base := methodStr m ++ " " ++ path ++ " HTTP/1.1\r\nHost: " ++ host ++
    "\r\nUser-Agent: Rust-HTTP-Client\r\nConnection: close\r\n\r\n"
  match serialized with
  | some sb => base ++ sb ++ "\r\n"
  | none => base

/-- Lines 154-185 of `src/http_client.rs`: write the finished request text to
the socket, read the response to end-of-stream and parse it. -/
def sendAndRead {J : Type} (env : NetEnv J) (text : String) : RequestOutcome :=
  if env.writeOk text then
    match env.readResult with
    | none => RequestOutcome.err (.connectionError env.readErrMsg)
    | some response =>
        match parseResponse response env.elapsed with
        | none => RequestOutcome.panicked
        | some r => RequestOutcome.okSome r
  else RequestOutcome.err (.connectionError env.writeErrMsg)

/-- Lines 131-185 of `src/http_client.rs`: the part of `request` after the
target address has been resolved — connect to `"<ip>:80"`, build the request
text (serializing the body when one was supplied), write it, read the
response and parse it. -/
def requestWith {J : Type} (m : HttpMethod) (env : NetEnv J) (body : Option J)
    (host path ip : String) : RequestOutcome :=
  if env.connect (ip ++ ":80") then
    match body with
    | none => sendAndRead env (buildRequestText m host path none)
    | some b =>
        match env.serialize b with
        | none => RequestOutcome.err (.serializationError env.serErrMsg)
        | some sb => sendAndRead env (buildRequestText m host path (some sb))
  else RequestOutcome.err (.connectionError env.connErrMsg)

/-- Model of `HttpClient::request` (`src/http_client.rs:115-186`): parse the URL and
extract the host, probe `(host, 80)`, fall back to a DNS lookup whose
failure yields `Ok(None)` and whose success selects the first address, then
run the rest of the exchange via `requestWith`. -/
def request {J : Type} (m : HttpMethod) (env : NetEnv J) (body : Option J) :
    RequestOutcome :=
  match env.parseUrl with
  | none => RequestOutcome.err (.invalidUrl env.urlErrMsg)
  | some u =>
      match u.host with
      | none => RequestOutcome.err (.invalidUrl "Missing host")
      | some host =>
          if env.probe host 80 then requestWith m env body host u.path host
          else
            match env.lookup host with
            | none => RequestOutcome.okNone
            | some [] => RequestOutcome.panicked
            | some (ip :: _) => requestWith m env body host u.path ip


/-! ## Concrete fixtures -/

/-- A well-formed raw 201 response with one header line and a JSON body. -/
def okRaw : List Char :=
  ("HTTP/1.1 201 Created\r\nContent-Type: application/json\r\n\r\n" ++
   "\x7b\"id\":101\x7d").toList

/-- The parse of `okRaw` (with a measured duration of 7). -/
def okResp : HttpResponse :=
  { status_code := 201
    status_text := "Created"
    json_body := "\x7b\"id\":101\x7d".toList
    duration := 7
    headers := [("Content-Type".toList, "application/json".toList)] }

/-- A raw response whose two header lines carry the same header name. -/
def dupRaw : List Char :=
  "HTTP/1.1 200 OK\r\nA: 1\r\nA: 2\r\n\r\n".toList

/-- A raw response with a separator-free header line `X` followed by a header
line `X: 1` with the same name. -/
def shadowRaw : List Char :=
  "HTTP/1.1 200 OK\r\nX\r\nX: 1\r\n\r\n".toList

/-- A raw response with a separator-free header line `X` whose name no later
header line repeats. -/
def loneRaw : List Char :=
  "HTTP/1.1 200 OK\r\nX\r\nA: 1\r\n\r\n".toList

/-- The parse of `loneRaw` (duration 0). -/
def loneResp : HttpResponse :=
  { status_code := 200
    status_text := "OK"
    json_body := loneRaw
    duration := 0
    headers := [("X".toList, []), ("A".toList, "1".toList)] }

/-- A raw response whose last `'\x7d'` precedes its first `'\x7b'` by more
than one position. -/
def reversedBracesRaw : List Char :=
  "\x7dx\x7b".toList

/-- A raw response whose status line has an unparsable second token. -/
def badCodeRaw : List Char :=
  "HTTP/1.1 abc def\r\n\r\n".toList

/-- The parse of `badCodeRaw` (duration 0). -/
def badCodeResp : HttpResponse :=
  { status_code := 0
    status_text := "Unknown"
    json_body := badCodeRaw
    duration := 0
    headers := [] }

/-- An environment in which every external call succeeds and the server
answers with `okRaw`. -/
def happyEnv : NetEnv Unit :=
  { parseUrl := some { scheme := "https", host := some "example.test", path := "/posts/2" }
    urlErrMsg := "relative URL without a base"
    probe := fun _ _ => true
    lookup := fun _ => some ["93.184.216.34"]
    connect := fun _ => true
    connErrMsg := "connection refused"
    serialize := fun _ => some "\x7b\x7d"
    serErrMsg := "key must be a string"
    writeOk := fun _ => true
    writeErrMsg := "broken pipe"
    readResult := some okRaw
    readErrMsg := "connection reset"
    elapsed := 7 }

/-- Variant of `happyEnv` with an unreachable host and a failing DNS lookup. -/
def noDnsEnv : NetEnv Unit :=
  { happyEnv with probe := fun _ _ => false, lookup := fun _ => none }

/-- Variant of `happyEnv` with an unreachable host and a successful DNS lookup. -/
def dnsEnv : NetEnv Unit :=
  { happyEnv with probe := fun _ _ => false }

/-! ## Helper lemmas -/

theorem mem_keys_hmInsert (m : List (List Char × List Char)) (k v q : List Char) :
    q ∈ (hmInsert m k v).map Prod.fst ↔ q ∈ m.map Prod.fst ∨ q = k := by
  induction m with
  | nil => simp [hmInsert]
  | cons p rest ih =>
      obtain ⟨a, b⟩ := p
      by_cases h : a = k
      · subst h
        simp [hmInsert]
        tauto
      · simp [hmInsert, h, ih]
        tauto

theorem nodup_keys_hmInsert (m : List (List Char × List Char)) (k v : List Char)
    (hm : (m.map Prod.fst).Nodup) : ((hmInsert m k v).map Prod.fst).Nodup := by
  induction m with
  | nil => simp [hmInsert]
  | cons p rest ih =>
      obtain ⟨a, b⟩ := p
      simp only [List.map_cons, List.nodup_cons] at hm
      by_cases h : a = k
      · subst h
        simpa [hmInsert] using hm
      · rw [show hmInsert ((a, b) :: rest) k v = (a, b) :: hmInsert rest k v from by
          simp [hmInsert, h]]
        simp only [List.map_cons, List.nodup_cons]
        refine ⟨?_, ih hm.2⟩
        rw [mem_keys_hmInsert]
        push_neg
        exact ⟨hm.1, h⟩

theorem hmLookup_hmInsert (m : List (List Char × List Char)) (k v q : List Char) :
    hmLookup (hmInsert m k v) q = if k = q then some v else hmLookup m q := by
  induction m with
  | nil => simp [hmInsert, hmLookup]
  | cons p rest ih =>
      obtain ⟨a, b⟩ := p
      by_cases h : a = k
      · subst h
        by_cases hq : a = q <;> simp [hmInsert, hmLookup, hq]
      · by_cases hq : a = q
        · subst hq
          have hk : ¬ k = a := fun hh => h hh.symm
          simp [hmInsert, hmLookup, h, hk]
        · simp [hmInsert, hmLookup, h, hq, ih]

theorem hmLookup_foldl (ps : List (List Char × List Char)) :
    ∀ (m : List (List Char × List Char)) (q : List Char),
      hmLookup (ps.foldl (fun m p => hmInsert m p.1 p.2) m) q =
        match lastWins ps q with
        | some v => some v
        | none => hmLookup m q := by
  induction ps with
  | nil => intro m q; simp [lastWins]
  | cons p rest ih =>
      intro m q
      simp only [List.foldl_cons, ih, hmLookup_hmInsert, lastWins]
      cases lastWins rest q with
      | some v => simp
      | none => by_cases h : p.1 = q <;> simp [h]

theorem mem_keys_foldl (ps : List (List Char × List Char)) :
    ∀ (m : List (List Char × List Char)) (q : List Char),
      q ∈ ((ps.foldl (fun m p => hmInsert m p.1 p.2) m).map Prod.fst) ↔
        q ∈ m.map Prod.fst ∨ q ∈ ps.map Prod.fst := by
  induction ps with
  | nil => intro m q; simp
  | cons p rest ih =>
      intro m q
      simp only [List.foldl_cons, ih, mem_keys_hmInsert, List.map_cons,
        List.mem_cons]
      tauto

theorem nodup_keys_foldl (ps : List (List Char × List Char)) :
    ∀ (m : List (List Char × List Char)), (m.map Prod.fst).Nodup →
      (((ps.foldl (fun m p => hmInsert m p.1 p.2) m)).map Prod.fst).Nodup := by
  induction ps with
  | nil => intro m hm; simpa using hm
  | cons p rest ih =>
      intro m hm
      exact ih _ (nodup_keys_hmInsert m p.1 p.2 hm)

theorem hmInsert_of_not_mem (m : List (List Char × List Char)) (k v : List Char)
    (h : k ∉ m.map Prod.fst) : hmInsert m k v = m ++ [(k, v)] := by
  induction m with
  | nil => simp [hmInsert]
  | cons p rest ih =>
      obtain ⟨a, b⟩ := p
      simp only [List.map_cons, List.mem_cons] at h
      push_neg at h
      have ha : a ≠ k := fun hh => h.1 hh.symm
      simp [hmInsert, ha, ih h.2]

theorem foldl_hmInsert_nodup (ps : List (List Char × List Char)) :
    ∀ (m : List (List Char × List Char)),
      (m.map Prod.fst ++ ps.map Prod.fst).Nodup →
      ps.foldl (fun m p => hmInsert m p.1 p.2) m = m ++ ps := by
  induction ps with
  | nil => intro m _; simp
  | cons p rest ih =>
      intro m hm
      have hk : p.1 ∉ m.map Prod.fst := by
        intro hmem
        rcases List.nodup_append.1 hm with ⟨_, _, hdisj⟩
        exact hdisj hmem (by simp)
      have step : hmInsert m p.1 p.2 = m ++ [p] := by
        simpa using hmInsert_of_not_mem m p.1 p.2 hk
      have hm2 : ((m ++ [p]).map Prod.fst ++ rest.map Prod.fst).Nodup := by
        simp only [List.map_append, List.map_cons, List.map_nil] at hm ⊢
        simpa [List.append_assoc, List.singleton_append] using hm
      calc (p :: rest).foldl (fun m p => hmInsert m p.1 p.2) m
          = rest.foldl (fun m p => hmInsert m p.1 p.2) (m ++ [p]) := by
            simp [step]
        _ = (m ++ [p]) ++ rest := ih _ hm2
        _ = m ++ p :: rest := by simp

theorem lastWins_append (a b : List (List Char × List Char)) (q : List Char) :
    lastWins (a ++ b) q =
      match lastWins b q with
      | some v => some v
      | none => lastWins a q := by
  induction a with
  | nil =>
      simp only [List.nil_append, lastWins]
      cases lastWins b q <;> rfl
  | cons p rest ih =>
      rw [List.cons_append]
      simp only [lastWins, List.append_eq, ih]
      cases lastWins b q <;> cases lastWins rest q <;> rfl

theorem lastWins_of_keys_ne (ps : List (List Char × List Char)) (q : List Char)
    (h : ∀ p ∈ ps, p.1 ≠ q) : lastWins ps q = none := by
  induction ps with
  | nil => rfl
  | cons p rest ih =>
      have hp : p.1 ≠ q := h p (by simp)
      have hrest : lastWins rest q = none := ih fun r hr => h r (by simp [hr])
      simp [lastWins, hrest, hp]

theorem findChar_lt_length (c : Char) (s : List Char) (i : Nat)
    (h : findChar c s = some i) : i < s.length := by
  induction s generalizing i with
  | nil => simp [findChar] at h
  | cons x rest ih =>
      simp only [List.length_cons]
      by_cases hx : x = c
      · simp [findChar, hx] at h
        omega
      · simp only [findChar, hx, if_false] at h
        cases hr : findChar c rest with
        | none => rw [hr] at h; simp at h
        | some j =>
            rw [hr] at h
            simp at h
            have := ih j hr
            omega

theorem rfindChar_lt_length (c : Char) (s : List Char) (i : Nat)
    (h : rfindChar c s = some i) : i < s.length := by
  induction s generalizing i with
  | nil => simp [rfindChar] at h
  | cons x rest ih =>
      simp only [List.length_cons]
      simp only [rfindChar] at h
      cases hr : rfindChar c rest with
      | some j =>
          rw [hr] at h
          simp only [Option.some.injEq] at h
          have := ih j hr
          omega
      | none =>
          rw [hr] at h
          by_cases hx : x = c
          · simp [hx] at h
            omega
          · simp [hx] at h

theorem jsonEndOf_le_length (s : List Char) : jsonEndOf s ≤ s.length := by
  unfold jsonEndOf
  cases hr : rfindChar '}' s with
  | none => simp
  | some j =>
      have := rfindChar_lt_length '}' s j hr
      simp
      omega

theorem sliceOf_eq_some (s : List Char) (a b : Nat) (l : List Char) :
    sliceOf s a b = some l ↔ (a ≤ b ∧ b ≤ s.length) ∧ l = (s.take b).drop a := by
  unfold sliceOf
  split
  · simp_all
    tauto
  · simp_all

theorem parseResponse_some (response : List Char) (dur : Nat) (r : HttpResponse)
    (h : parseResponse response dur = some r) :
    r = { status_code := statusCodeOf response
          status_text := get_status_text (statusCodeOf response)
          json_body := (response.take (jsonEndOf response)).drop (jsonStartOf response)
          duration := dur
          headers := headersOf response } := by
  unfold parseResponse at h
  cases hs : sliceOf response (jsonStartOf response) (jsonEndOf response) with
  | none => rw [hs] at h; exact absurd h (by simp)
  | some body =>
      rw [hs] at h
      rcases (sliceOf_eq_some _ _ _ _).1 hs with ⟨_, hb⟩
      simp only [Option.some.injEq] at h
      rw [← h, hb]

theorem linesAux_append_nl (a : List Char) :
    ∀ (cur rest : List Char), '\n' ∉ a →
      linesAux cur (a ++ '\n' :: rest) =
        stripCR (cur.reverse ++ a) :: linesAux [] rest := by
  induction a with
  | nil => intro cur rest _; simp [linesAux]
  | cons c a ih =>
      intro cur rest h
      simp only [List.mem_cons, not_or] at h
      have hc : ¬ c = '\n' := fun hh => h.1 hh.symm
      simp only [List.cons_append, linesAux, hc, if_false, List.append_eq]
      rw [ih (c :: cur) rest h.2]
      simp [List.append_assoc]


theorem tableLookup_none_of_big (c : Nat) (l : List (Nat × String)) (hc : 512 ≤ c)
    (hl : ∀ p ∈ l, p.1 < 512) : tableLookup c l = none := by
  induction l with
  | nil => rfl
  | cons p rest ih =>
      obtain ⟨k, v⟩ := p
      have hp : k < 512 := hl (k, v) (by simp)
      have hne : ¬ c = k := by omega
      simp only [tableLookup, hne, if_false]
      exact ih fun q hq => hl q (by simp [hq])

set_option maxRecDepth 4000 in
theorem get_status_text_eq_table (c : Nat) :
    get_status_text c = (tableLookup c statusTable).getD "Unknown" := by
  by_cases h : c < 512
  · have hlow : ∀ c : Fin 512,
        get_status_text c.1 = (tableLookup c.1 statusTable).getD "Unknown" := by decide
    exact hlow ⟨c, h⟩
  · have h512 : 512 ≤ c := Nat.le_of_not_lt h
    have ht : tableLookup c statusTable = none :=
      tableLookup_none_of_big c statusTable h512 (by decide)
    have hg : get_status_text c = "Unknown" := by
      unfold get_status_text
      repeat rw [if_neg (by omega)]
    rw [ht, hg]
    rfl

theorem sendAndRead_ne_okNone {J : Type} (env : NetEnv J) (text : String) :
    sendAndRead env text ≠ RequestOutcome.okNone := by
  unfold sendAndRead
  by_cases hw : env.writeOk text
  · rw [if_pos hw]
    cases env.readResult with
    | none => simp
    | some resp =>
        rcases hp : parseResponse resp env.elapsed with _ | r
        · simp [hp]
        · simp [hp]
  · rw [if_neg hw]
    simp

theorem requestWith_ne_okNone {J : Type} (m : HttpMethod) (env : NetEnv J)
    (body : Option J) (host path ip : String) :
    requestWith m env body host path ip ≠ RequestOutcome.okNone := by
  unfold requestWith
  by_cases hc : env.connect (ip ++ ":80")
  · rw [if_pos hc]
    cases body with
    | none => exact sendAndRead_ne_okNone env _
    | some b =>
        rcases hs : env.serialize b with _ | sb
        · simp [hs]
        · simp only [hs]
          exact sendAndRead_ne_okNone env _
  · rw [if_neg hc]
    simp

theorem sendAndRead_ne_serializationError {J : Type} (env : NetEnv J)
    (text : String) (msg : String) :
    sendAndRead env text ≠ RequestOutcome.err (.serializationError msg) := by
  unfold sendAndRead
  by_cases hw : env.writeOk text
  · rw [if_pos hw]
    cases env.readResult with
    | none => simp
    | some resp =>
        rcases hp : parseResponse resp env.elapsed with _ | r
        · simp [hp]
        · simp [hp]
  · rw [if_neg hw]
    simp

theorem requestWith_connect_congr {J : Type} (m : HttpMethod) (env : NetEnv J)
    (body : Option J) (host path ip : String) (pu : Option UrlParts)
    (p : String → Nat → Bool) (c : String → Bool)
    (hc : ∀ a, c (a ++ ":80") = env.connect (a ++ ":80")) :
    requestWith m
      { env with
        parseUrl := pu
        probe := p
        connect := c } body host path ip =
      requestWith m env body host path ip := by
  unfold requestWith
  dsimp only
  rw [hc ip]
  rfl

/-! ## The claims -/

/-- C1 (corrected): every header line is split at the first `": "` into a
name/value pair, but because the pairs are collected into a `HashMap`,
duplicate names are merged rather than kept as separate entries: the map has
exactly one entry per distinct parsed name, the value of a name is the value
of the last header line carrying it, and only when the parsed names are
pairwise distinct does the map consist of exactly one entry per header
line. -/
theorem headers_entries_per_name :
    ∀ (raw : List Char) (dur : Nat) (r : HttpResponse),
      parseResponse raw dur = some r →
      ((r.headers.map Prod.fst).Nodup ∧
       (∀ q, q ∈ r.headers.map Prod.fst ↔ q ∈ (headerPairsOf raw).map Prod.fst) ∧
       (∀ q, hmLookup r.headers q = lastWins (headerPairsOf raw) q) ∧
       (((headerPairsOf raw).map Prod.fst).Nodup → r.headers = headerPairsOf raw)) := by
  intro raw dur r h
  rw [parseResponse_some raw dur r h]
  refine ⟨?_, ?_, ?_, ?_⟩
  · exact nodup_keys_foldl (headerPairsOf raw) [] (by simp)
  · intro q
    have := mem_keys_foldl (headerPairsOf raw) [] q
    simpa using this
  · intro q
    show hmLookup ((headerPairsOf raw).foldl (fun m p => hmInsert m p.1 p.2) []) q =
      lastWins (headerPairsOf raw) q
    rw [hmLookup_foldl]
    cases lastWins (headerPairsOf raw) q <;> rfl
  · intro hnd
    have := foldl_hmInsert_nodup (headerPairsOf raw) [] (by simpa using hnd)
    simpa using this

/-- Witness for C1 at the concrete response `okRaw`. -/
theorem headers_entries_per_name_witness : okResp.headers = headerPairsOf okRaw :=
  (headers_entries_per_name okRaw 7 okResp (by decide)).2.2.2 (by decide)

/-- Counterexample for C1 as stated: `dupRaw` has two header lines containing
`": "`, yet the returned header mapping has a single entry (the second line
overwrote the first). -/
theorem headers_entries_per_name_cex :
    ((headerLinesOf dupRaw).filter (fun l => (splitFirstSep l).isSome)).length = 2 ∧
    (parseResponse dupRaw 0).map (fun r => r.headers) =
      some [("A".toList, "2".toList)] := by decide

/-- C2 (corrected): whenever the computed start index (position of the first
`'\x7b'`, defaulting to 0) does not exceed the computed end index (one past
the position of the last `'\x7d'`, defaulting to the length), the returned
response's `json_body` is exactly the slice between those indices; without
that proviso the slice panics (see C9). -/
theorem json_body_between_braces (raw : List Char) (dur : Nat)
    (h : jsonStartOf raw ≤ jsonEndOf raw) :
    (parseResponse raw dur).map (fun r => r.json_body) =
      some ((raw.take (jsonEndOf raw)).drop (jsonStartOf raw)) ∧
    (findChar '{' raw = none → jsonStartOf raw = 0) ∧
    (rfindChar '}' raw = none → jsonEndOf raw = raw.length) := by
  have hle := jsonEndOf_le_length raw
  have hs : sliceOf raw (jsonStartOf raw) (jsonEndOf raw) =
      some ((raw.take (jsonEndOf raw)).drop (jsonStartOf raw)) := by
    unfold sliceOf
    rw [if_pos ⟨h, hle⟩]
  refine ⟨?_, fun hn => by simp [jsonStartOf, hn], fun hn => by simp [jsonEndOf, hn]⟩
  unfold parseResponse
  rw [hs]
  rfl

/-- Witness for C2 at the concrete response `okRaw`. -/
theorem json_body_between_braces_witness :
    (parseResponse okRaw 7).map (fun r => r.json_body) =
      some ((okRaw.take (jsonEndOf okRaw)).drop (jsonStartOf okRaw)) :=
  (json_body_between_braces okRaw 7 (by decide)).1

/-- Counterexample for C2 as stated: on `reversedBracesRaw` no response is
returned at all (the slice panics), so its `json_body` is not the claimed
substring. -/
theorem json_body_between_braces_cex :
    (parseResponse reversedBracesRaw 0).map (fun r => r.json_body) ≠
      some ((reversedBracesRaw.take (jsonEndOf reversedBracesRaw)).drop
        (jsonStartOf reversedBracesRaw)) := by decide

/-- C3: the status phrase of a returned response is the fixed table's phrase
for its status code — `"Unknown"` for any code outside the table — and
depends only on the numeric code, never on the phrase the server sent. -/
theorem status_text_from_table :
    (∀ c : Nat, get_status_text c = (tableLookup c statusTable).getD "Unknown") ∧
    (∀ (raw : List Char) (dur : Nat) (r : HttpResponse),
      parseResponse raw dur = some r →
      r.status_text = (tableLookup r.status_code statusTable).getD "Unknown") := by
  refine ⟨get_status_text_eq_table, ?_⟩
  intro raw dur r h
  rw [parseResponse_some raw dur r h]
  exact get_status_text_eq_table (statusCodeOf raw)

/-- Witness for C3 at the concrete response `okRaw`. -/
theorem status_text_from_table_witness :
    okResp.status_text = (tableLookup okResp.status_code statusTable).getD "Unknown" :=
  status_text_from_table.2 okRaw 7 okResp (by decide)

/-- C4: `request` yields the success-without-response outcome exactly when the
URL parsed with a host, the probe connection to `(host, 80)` failed and the
DNS lookup of the host failed too; when the lookup succeeds instead, the
exchange proceeds with the first returned address. -/
theorem okNone_iff_probe_and_lookup_fail {J : Type} (m : HttpMethod)
    (env : NetEnv J) (body : Option J) :
    (request m env body = RequestOutcome.okNone ↔
      ∃ u host, env.parseUrl = some u ∧ u.host = some host ∧
        env.probe host 80 = false ∧ env.lookup host = none) ∧
    (∀ u host ip rest, env.parseUrl = some u → u.host = some host →
      env.probe host 80 = false → env.lookup host = some (ip :: rest) →
      request m env body = requestWith m env body host u.path ip) := by
  constructor
  · constructor
    · intro h
      unfold request at h
      cases hu : env.parseUrl with
      | none => rw [hu] at h; exact absurd h (by simp)
      | some u =>
          rw [hu] at h
          try dsimp only at h
          cases hh : u.host with
          | none => rw [hh] at h; exact absurd h (by simp)
          | some host =>
              rw [hh] at h
              try dsimp only at h
              by_cases hp : env.probe host 80
              · rw [if_pos hp] at h
                exact absurd h (requestWith_ne_okNone m env body host u.path host)
              · rw [if_neg hp] at h
                cases hl : env.lookup host with
                | none =>
                    exact ⟨u, host, rfl, hh, by simpa using hp, hl⟩
                | some ips =>
                    rw [hl] at h
                    try dsimp only at h
                    cases ips with
                    | nil => exact absurd h (by simp)
                    | cons ip rest =>
                        exact absurd h (requestWith_ne_okNone m env body host u.path ip)
    · rintro ⟨u, host, hu, hh, hp, hl⟩
      unfold request
      rw [hu]
      try dsimp only
      rw [hh]
      try dsimp only
      simp [hp, hl]
  · intro u host ip rest hu hh hp hl
    unfold request
    rw [hu]
    try dsimp only
    rw [hh]
    try dsimp only
    simp [hp, hl]

/-- Witness for C4: with a failing probe and failing lookup the outcome is the
bare success-without-response value. -/
theorem okNone_iff_probe_and_lookup_fail_witness :
    request HttpMethod.get noDnsEnv (none : Option Unit) = RequestOutcome.okNone :=
  (okNone_iff_probe_and_lookup_fail HttpMethod.get noDnsEnv none).1.mpr
    ⟨_, "example.test", rfl, rfl, rfl, rfl⟩

/-- C5: the request text is exactly the method string, path and `HTTP/1.1`
request line followed by the `Host`, `User-Agent` and `Connection: close`
headers and a blank line; the serialized body plus `"\r\n"` follows exactly
when a body was supplied (no `Content-Length` or `Content-Type` is added);
and for method GET and path `/posts/2` the request line is exactly
`GET /posts/2 HTTP/1.1`. -/
theorem request_text_format (m : HttpMethod) (host path sb : String) :
    buildRequestText m host path none =
      methodStr m ++ " " ++ path ++ " HTTP/1.1\r\nHost: " ++ host ++
        "\r\nUser-Agent: Rust-HTTP-Client\r\nConnection: close\r\n\r\n" ∧
    buildRequestText m host path (some sb) =
      buildRequestText m host path none ++ sb ++ "\r\n" ∧
    (rustLines (buildRequestText HttpMethod.get host "/posts/2" none).toList).headD [] =
      "GET /posts/2 HTTP/1.1".toList := by
  refine ⟨rfl, rfl, ?_⟩
  have hstr : buildRequestText HttpMethod.get host "/posts/2" none =
      "GET /posts/2 HTTP/1.1\r\nHost: " ++
        (host ++ "\r\nUser-Agent: Rust-HTTP-Client\r\nConnection: close\r\n\r\n") := by
    show "GET" ++ " " ++ "/posts/2" ++ " HTTP/1.1\r\nHost: " ++ host ++
      "\r\nUser-Agent: Rust-HTTP-Client\r\nConnection: close\r\n\r\n" = _
    rw [show "GET" ++ " " ++ "/posts/2" ++ " HTTP/1.1\r\nHost: " =
      "GET /posts/2 HTTP/1.1\r\nHost: " from by decide]
    rw [String.append_assoc]
  rw [hstr]
  have hdata : ("GET /posts/2 HTTP/1.1\r\nHost: " ++
      (host ++ "\r\nUser-Agent: Rust-HTTP-Client\r\nConnection: close\r\n\r\n")).toList =
      "GET /posts/2 HTTP/1.1\r".toList ++ '\n' ::
        ("Host: ".toList ++
          (host.toList ++
            "\r\nUser-Agent: Rust-HTTP-Client\r\nConnection: close\r\n\r\n".toList)) := by
    simp [String.toList, String.data_append]
  rw [hdata]
  unfold rustLines
  rw [linesAux_append_nl _ _ _ (by decide)]
  simp only [List.headD_cons]
  decide

/-- C6: the outcome of `request` is unchanged when the URL scheme is replaced
by any other scheme and when the probe and connect oracles are replaced by
any functions that agree with the originals on port 80 (respectively on
addresses formatted with the `":80"` suffix): every connection the code makes
targets port 80, and the scheme is never consulted. -/
theorem connections_use_port_80 {J : Type} (m : HttpMethod) (env : NetEnv J)
    (body : Option J) (p : String → Nat → Bool) (c : String → Bool) (s : String)
    (hp : ∀ h, p h 80 = env.probe h 80)
    (hc : ∀ a, c (a ++ ":80") = env.connect (a ++ ":80")) :
    request m
      { env with
        parseUrl := env.parseUrl.map (fun u => { u with scheme := s })
        probe := p
        connect := c } body =
      request m env body := by
  unfold request
  dsimp only
  cases hu : env.parseUrl with
  | none => rfl
  | some u =>
      dsimp only [Option.map]
      cases hh : u.host with
      | none => rfl
      | some host =>
          dsimp only
          rw [hp host]
          by_cases hpr : env.probe host 80
          · rw [if_pos hpr, if_pos hpr]
            exact requestWith_connect_congr m env body host u.path host _ p c hc
          · rw [if_neg hpr, if_neg hpr]
            cases hl : env.lookup host with
            | none => rfl
            | some ips =>
                cases ips with
                | nil => rfl
                | cons ip rest =>
                    exact requestWith_connect_congr m env body host u.path ip _ p c hc

/-- Witness for C6: changing `happyEnv`'s scheme to `http` while keeping the
port-80 behaviour of its oracles leaves the outcome unchanged. -/
theorem connections_use_port_80_witness :
    request HttpMethod.get
      { happyEnv with
        parseUrl := happyEnv.parseUrl.map (fun u => { u with scheme := "http" })
        probe := fun h _ => happyEnv.probe h 80
        connect := fun a => happyEnv.connect a } (none : Option Unit) =
      request HttpMethod.get happyEnv none :=
  connections_use_port_80 HttpMethod.get happyEnv none
    (fun h _ => happyEnv.probe h 80) (fun a => happyEnv.connect a) "http"
    (fun _ => rfl) (fun _ => rfl)

/-- C7: the status code of a returned response is the second
whitespace-separated token of the first line parsed as a `u16`, and when that
token is missing or unparsable the code is 0 and the phrase is
`"Unknown"`. -/
theorem status_code_from_second_token :
    ∀ (raw : List Char) (dur : Nat) (r : HttpResponse),
      parseResponse raw dur = some r →
      (r.status_code =
        (((splitWhitespace ((rustLines raw).headD []))[1]?).bind parseU16).getD 0 ∧
       ((((splitWhitespace ((rustLines raw).headD []))[1]?).bind parseU16) = none →
         r.status_code = 0 ∧ r.status_text = "Unknown")) := by
  intro raw dur r h
  rw [parseResponse_some raw dur r h]
  refine ⟨rfl, fun hn => ⟨?_, ?_⟩⟩
  · show statusCodeOf raw = 0
    unfold statusCodeOf statusLineOf
    rw [hn]
    rfl
  · show get_status_text (statusCodeOf raw) = "Unknown"
    have hz : statusCodeOf raw = 0 := by
      unfold statusCodeOf statusLineOf
      rw [hn]
      rfl
    rw [hz]
    rfl

/-- Witness for C7 at `badCodeRaw`, whose second token `abc` does not parse. -/
theorem status_code_from_second_token_witness :
    badCodeResp.status_code = 0 ∧ badCodeResp.status_text = "Unknown" :=
  (status_code_from_second_token badCodeRaw 0 badCodeResp (by decide)).2 (by decide)

/-- C8 (corrected): a header line with no `": "` separator is parsed into a
pair of the whole line and the empty value, and the returned mapping sends
that line to the empty value provided no later header line parses to the
same name (otherwise the later line's value overwrites it, see the
counterexample). -/
theorem no_sep_header_line_empty_value (raw : List Char) (dur : Nat)
    (r : HttpResponse) (pre post : List (List Char)) (line : List Char)
    (h : parseResponse raw dur = some r)
    (hsplit : headerLinesOf raw = pre ++ line :: post)
    (hnosep : splitFirstSep line = none)
    (hlater : ∀ l ∈ post, (parseHeaderLine l).1 ≠ line) :
    hmLookup r.headers line = some [] := by
  rw [parseResponse_some raw dur r h]
  show hmLookup ((headerPairsOf raw).foldl (fun m p => hmInsert m p.1 p.2) []) line =
    some []
  rw [hmLookup_foldl]
  have hpairs : headerPairsOf raw =
      pre.map parseHeaderLine ++ (line, ([] : List Char)) :: post.map parseHeaderLine := by
    unfold headerPairsOf
    rw [hsplit]
    simp [parseHeaderLine, hnosep]
  have hpost : lastWins (post.map parseHeaderLine) line = none := by
    apply lastWins_of_keys_ne
    intro p hp
    rcases List.mem_map.1 hp with ⟨l, hl, rfl⟩
    exact hlater l hl
  have hB : lastWins ((line, ([] : List Char)) :: post.map parseHeaderLine) line =
      some [] := by
    simp only [lastWins, hpost]
    simp
  rw [hpairs, lastWins_append, hB]

/-- Witness for C8 at `loneRaw`, whose separator-free line `X` is not
shadowed. -/
theorem no_sep_header_line_empty_value_witness :
    hmLookup loneResp.headers "X".toList = some [] :=
  no_sep_header_line_empty_value loneRaw 0 loneResp [] ["A: 1".toList] "X".toList
    (by decide) (by decide) (by decide) (by decide)

/-- Counterexample for C8 as stated: in `shadowRaw` the separator-free header
line `X` is present, yet the mapping holds no entry with key `X` and empty
value — the later line `X: 1` overwrote it. -/
theorem no_sep_header_line_empty_value_cex :
    ("X".toList ∈ headerLinesOf shadowRaw ∧ splitFirstSep "X".toList = none) ∧
    (parseResponse shadowRaw 0).map
      (fun r => r.headers.contains ("X".toList, ([] : List Char))) = some false ∧
    (parseResponse shadowRaw 0).map (fun r => hmLookup r.headers "X".toList) =
      some (some "1".toList) := by decide

/-- C9: the body extraction is not total — on `reversedBracesRaw` (text
`\x7dx\x7b`, whose last closing brace precedes its first opening brace) the
computed slice bounds are reversed and the slice panics, modelled here by
`parseResponse` returning `none`. -/
theorem body_slice_panics_on_reversed_braces :
    jsonEndOf reversedBracesRaw < jsonStartOf reversedBracesRaw ∧
    parseResponse reversedBracesRaw 0 = none := by decide

/-- C10: when no JSON body is supplied, `request` can never fail with a
serialization error — the serialization branch is unreachable. -/
theorem no_body_no_serialization_error {J : Type} (m : HttpMethod)
    (env : NetEnv J) (msg : String) :
    request m env none ≠ RequestOutcome.err (.serializationError msg) := by
  have hreq : ∀ host path ip, requestWith m env none host path ip ≠
      RequestOutcome.err (.serializationError msg) := by
    intro host path ip
    unfold requestWith
    by_cases hc : env.connect (ip ++ ":80")
    · rw [if_pos hc]
      exact sendAndRead_ne_serializationError env _ msg
    · rw [if_neg hc]
      simp
  unfold request
  cases hu : env.parseUrl with
  | none => simp
  | some u =>
      try dsimp only
      cases hh : u.host with
      | none => simp
      | some host =>
          try dsimp only
          by_cases hp : env.probe host 80
          · rw [if_pos hp]
            exact hreq host u.path host
          · rw [if_neg hp]
            cases hl : env.lookup host with
            | none => simp
            | some ips =>
                try dsimp only
                cases ips with
                | nil => simp
                | cons ip rest => exact hreq host u.path ip

/-- Witness for C10 at the concrete environment `happyEnv`. -/
theorem no_body_no_serialization_error_witness :
    (request HttpMethod.get happyEnv (none : Option Unit) =
      RequestOutcome.err (.serializationError "key must be a string")) = False :=
  eq_false
    (no_body_no_serialization_error HttpMethod.get happyEnv "key must be a string")

end HttpClientModel
